import Mathlib

/-!
# Verification of the risc0 host-side runtime (receipt chain verifier & continuation executor)

Shallow embedding of the receipt chain-verification protocol
(`src/risc0/zkvm/src/host/receipt.rs`) and of the continuation executor
(`src/risc0/zkvm/src/host/server/exec/executor.rs`), together with proofs of
the specification claims about them.

Conventions:
* Cryptographic hashing is modelled symbolically: `Digest` is a free inductive
  type whose constructors are the hash operations the verifier performs.
  Distinct constructor applications yield distinct digests, which is the
  standard collision-freeness idealization of the external hash oracle.
* The external proof-system oracle (`risc0_zkp::verify::verify`, §6 of the
  spec) is abstracted by a `sealOk` flag on each receipt: the oracle's
  cryptographic check passes iff the flag is set.
* Machine integers are modelled as `Nat`; the code paths embedded here never
  rely on wrap-around (`usize` cycle counters, `u32` registers masked before
  use).
* Fallible Rust code returning `Result<T, VerificationError>` becomes
  `Except VerificationError T`; `anyhow` errors become `Except String T`.
-/

namespace RiscZero

/-- Symbolic model of `risc0_zkp::core::digest::Digest`: a free algebra over
the hashing operations used by the receipt verifier.  `zero` is
`Digest::ZERO` (the digest of an absent output).  Lists of hashed values are
represented by the chain constructors `nilChain`/`consChain` so that equality
remains derivable. -/
inductive Digest where
  /-- Constructor for `Digest::ZERO`. -/
  | zero : Digest
  /-- An otherwise unconstrained digest value (e.g. a merkle root or input
  digest that the verifier only compares for equality). -/
  | raw (n : Nat) : Digest
  /-- Empty chain of hashed values. -/
  | nilChain : Digest
  /-- Chain cell holding one encoded value and the rest of the chain. -/
  | consChain (head : Nat) (tail : Digest) : Digest
  /-- Hashing constructor for `Sha256::hash_bytes` of a byte string encoded
  as a chain (used for journal digests). -/
  | hashBytes (bytes : Digest) : Digest
  /-- Digest of a `SystemState` (`{pc, merkle_root}`). -/
  | hashState (pc : Nat) (merkleRoot : Digest) : Digest
  /-- Digest of an `Output` structure from its two component digests. -/
  | hashOutput (journalDigest assumptionsDigest : Digest) : Digest
  /-- Chain cell for a list of digests (assumption metadata digests). -/
  | consDigest (head tail : Digest) : Digest
  /-- Digest of an `Assumptions` list from the chained member metadata
  digests. -/
  | hashAssumptions (metas : Digest) : Digest
  /-- Digest of a `ReceiptMetadata` from its component digests and encoded
  exit code. -/
  | hashMeta (pre post : Digest) (sysExit userExit : Nat)
      (input : Digest) (output : Digest) : Digest
deriving DecidableEq, Repr

/-- Encode a byte string as a digest chain (injective). -/
def byteChain (bytes : List Nat) : Digest :=
  bytes.foldr (fun b d => .consChain b d) .nilChain

/-- Model of `Sha256::hash_bytes` on a byte string: the journal digest
function (`impl Digestible for Journal`). -/
def journalDigest (bytes : List Nat) : Digest :=
  .hashBytes (byteChain bytes)

/-- Encode a list of digests as a digest chain (injective). -/
def digestChain (l : List Digest) : Digest :=
  l.foldr (fun d c => .consDigest d c) .nilChain

/-- Model of `ExitCode` as used by `host/receipt.rs` and the executor
(`crate::ExitCode`): the spec's §3 variant set. -/
inductive ExitCode where
  | SystemSplit : ExitCode
  | SessionLimit : ExitCode
  | Paused (userExit : Nat) : ExitCode
  | Halted (userExit : Nat) : ExitCode
  | Fault : ExitCode
deriving DecidableEq, Repr

/-- Modelled from the spec: `ExitCode::expects_output` (from
`receipt_metadata.rs`, which is not under `src/`).  Per §3/§4.4 only the
terminal user exits `Halted`/`Paused` carry an output; `SystemSplit` segments
are required to have `output` absent and a `Fault`/`SessionLimit` continuation
"has no output". -/
def ExitCode.expects_output : ExitCode → Bool
  | .Halted _ => true
  | .Paused _ => true
  | .SystemSplit => false
  | .SessionLimit => false
  | .Fault => false

/-- Modelled from the spec: an injective numeric encoding of the exit code as
the `(sys_exit, user_exit)` pair used when a `ReceiptMetadata` is digested
(`ExitCode::from_pair`'s inverse lives in `receipt_metadata.rs`, not under
`src/`; only injectivity matters for the claims). -/
def ExitCode.encodePair : ExitCode → Nat × Nat
  | .Halted n => (0, n)
  | .Paused n => (1, n)
  | .SystemSplit => (2, 0)
  | .SessionLimit => (3, 0)
  | .Fault => (4, 0)

/-- Model of `risc0_binfmt::SystemState` (§3): a snapshot of execution
position. -/
structure SystemState where
  pc : Nat
  merkle_root : Digest
deriving DecidableEq, Repr

/-- Digest of a `SystemState` (`SystemState::digest`, compared by the chain
verifier against image ids). -/
def SystemState.digest (s : SystemState) : Digest :=
  .hashState s.pc s.merkle_root

/-- Modelled from the spec (§3 data model): `Output`
`{journal_digest, assumptions_digest}` — the spec's collapsed form of the
`Output`/`MaybePruned` structures of `receipt_metadata.rs` (not under
`src/`). -/
structure Output where
  journal_digest : Digest
  assumptions_digest : Digest
deriving DecidableEq, Repr

/-- Model of `Output::digest`. -/
def Output.digest (o : Output) : Digest :=
  .hashOutput o.journal_digest o.assumptions_digest

/-- Model of `Digestible` for `Option<Output>`: an absent output digests
to `Digest::ZERO`. -/
def optOutputDigest : Option Output → Digest
  | none => .zero
  | some o => o.digest

/-- Model of `ReceiptMetadata` (§3): the public claim a segment's seal
attests to. -/
structure ReceiptMetadata where
  pre : SystemState
  post : SystemState
  exit_code : ExitCode
  input : Digest
  output : Option Output
deriving DecidableEq, Repr

/-- Model of `ReceiptMetadata::digest` (used to digest assumption
metadata). -/
def ReceiptMetadata.digest (m : ReceiptMetadata) : Digest :=
  .hashMeta m.pre.digest m.post.digest
    m.exit_code.encodePair.1 m.exit_code.encodePair.2
    m.input (optOutputDigest m.output)

/-- Digest of an `Assumptions` list of receipt metadatas. -/
def assumptionsListDigest (metas : List ReceiptMetadata) : Digest :=
  .hashAssumptions (digestChain (metas.map ReceiptMetadata.digest))

/-- Model of `risc0_zkp::verify::VerificationError` (the closed set of
typed verification failures, §4.4/§7). -/
inductive VerificationError where
  | ReceiptFormatError
  | ImageVerificationError
  | UnexpectedExitCode
  | JournalDigestMismatch
  | ControlVerificationError
  | InvalidHashSuite
  | InvalidProof
deriving DecidableEq, Repr

/-- Model of `VerifierContext`.  The hash-suite registry is folded into the seal
oracle; following the spec's design note (§9) the dev-mode bypass used by
`InnerReceipt::Fake` is an explicit field instead of the ambient
`is_dev_mode()` global. -/
structure VerifierContext where
  devMode : Bool
deriving DecidableEq, Repr

/-- Model of `SegmentReceipt`: seal, index and hash-suite name collapsed into the
oracle outcome `sealOk` plus the metadata the seal decodes to. -/
structure SegmentReceipt where
  /-- Outcome of the external cryptographic seal check
  (`risc0_zkp::verify::verify` with the control-id allow-list). -/
  sealOk : Bool
  /-- The `ReceiptMetadata` decoded from the seal
  (`SegmentReceipt::get_metadata`). -/
  metadata : ReceiptMetadata
  /-- Segment index within the receipt. -/
  index : Nat
deriving DecidableEq, Repr

/-- Model of `SegmentReceipt::verify_integrity_with_context`: the external oracle
contract of §4.4 — cryptographically checks the seal. -/
def SegmentReceipt.verify_integrity_with_context (s : SegmentReceipt)
    (_ctx : VerifierContext) : Except VerificationError Unit :=
  if s.sealOk then .ok () else .error .InvalidProof

/-- Model of `SegmentReceipt::get_metadata`: decodes the public metadata from the
seal. -/
def SegmentReceipt.get_metadata (s : SegmentReceipt) :
    Except VerificationError ReceiptMetadata :=
  .ok s.metadata

mutual

/-- Model of `InnerReceipt`: the polymorphic receipt kind.  The `Succinct` and
`Groth16` arms carry their oracle outcome and decoded metadata; `Fake` is the
dev-mode arm. -/
inductive InnerReceipt where
  | Composite (c : CompositeReceipt) : InnerReceipt
  | Succinct (sealOk : Bool) (meta : ReceiptMetadata) : InnerReceipt
  | Groth16 (sealOk : Bool) (meta : ReceiptMetadata) : InnerReceipt
  | Fake (meta : ReceiptMetadata) : InnerReceipt

/-- Model of `CompositeReceipt`: ordered segment receipts, nested assumption receipts
and the journal digest of the final output. -/
inductive CompositeReceipt where
  | mk (segments : List SegmentReceipt) (assumptions : List InnerReceipt)
      (journal_digest : Option Digest) : CompositeReceipt

end

/-- Projection `CompositeReceipt::segments`. -/
def CompositeReceipt.segments : CompositeReceipt → List SegmentReceipt
  | .mk s _ _ => s

/-- Projection `CompositeReceipt::assumptions`. -/
def CompositeReceipt.assumptions : CompositeReceipt → List InnerReceipt
  | .mk _ a _ => a

/-- Projection `CompositeReceipt::journal_digest`. -/
def CompositeReceipt.journal_digest : CompositeReceipt → Option Digest
  | .mk _ _ j => j

mutual

/-- Model of `InnerReceipt::get_metadata`. -/
def InnerReceipt.get_metadata :
    InnerReceipt → Except VerificationError ReceiptMetadata
  | .Composite c => c.get_metadata
  | .Succinct _ meta => .ok meta
  | .Groth16 _ meta => .ok meta
  | .Fake meta => .ok meta
termination_by r => (sizeOf r, 3)

/-- Model of `CompositeReceipt::get_metadata`: metadata of the whole continuation,
derived from the first and last segment after checking internal output
consistency.  Proven assumptions are not included in the resulting metadata's
output (its assumptions list is empty). -/
def CompositeReceipt.get_metadata (c : CompositeReceipt) :
    Except VerificationError ReceiptMetadata :=
  match c.segments.head? with
  | none => .error .ReceiptFormatError
  | some first => match c.segments.getLast? with
    | none => .error .ReceiptFormatError
    | some last =>
      match first.get_metadata with
      | .error e => .error e
      | .ok first_metadata =>
        match last.get_metadata with
        | .error e => .error e
        | .ok last_metadata =>
          match c.verify_output_consistency last_metadata with
          | .error e => .error e
          | .ok () =>
            match last_metadata.output with
            | none =>
              .ok { pre := first_metadata.pre, post := last_metadata.post,
                    exit_code := last_metadata.exit_code,
                    input := first_metadata.input, output := none }
            | some _ =>
              match c.journal_digest with
              | none => .error .ReceiptFormatError
              | some jd =>
                .ok { pre := first_metadata.pre, post := last_metadata.post,
                      exit_code := last_metadata.exit_code,
                      input := first_metadata.input,
                      output := some { journal_digest := jd,
                                       assumptions_digest :=
                                         assumptionsListDigest [] } }
termination_by (sizeOf c, 2)

/-- Model of `CompositeReceipt::verify_output_consistency`: check that the output
fields of the given metadata are consistent with the exit code and with the
`journal_digest` and `assumptions` encoded on the receipt (destructured here
so the recursion is visibly structural). -/
def CompositeReceipt.verify_output_consistency :
    CompositeReceipt → ReceiptMetadata → Except VerificationError Unit
  | .mk _segments assumptions jdOpt, metadata =>
    if metadata.exit_code.expects_output && metadata.output.isSome then
      match jdOpt with
      | none => .error .ReceiptFormatError
      | some jd =>
        match assumptionsMetadata assumptions with
        | .error e => .error e
        | .ok ams =>
          let self_output : Output :=
            { journal_digest := jd,
              assumptions_digest := assumptionsListDigest ams }
          if self_output.digest ≠ optOutputDigest metadata.output then
            -- NB: inside this branch `metadata.output.isSome` holds, so
            -- `empty_output` (which requires `metadata.output.is_none()`) is
            -- always false, exactly as in the source.
            let empty_output := metadata.output.isNone &&
              decide (jd = journalDigest [])
            if !empty_output then .error .ReceiptFormatError else .ok ()
          else .ok ()
    else
      if metadata.output.isSome then .error .ReceiptFormatError
      else if !assumptions.isEmpty then .error .ReceiptFormatError
      else if jdOpt.isSome then .error .ReceiptFormatError
      else .ok ()
termination_by c _ => (sizeOf c, 1)

/-- Model of `CompositeReceipt::assumptions_metadata`: metadata of every assumption
receipt, in order. -/
def assumptionsMetadata :
    List InnerReceipt → Except VerificationError (List ReceiptMetadata)
  | [] => .ok []
  | r :: rest =>
    match r.get_metadata with
    | .error e => .error e
    | .ok m =>
      match assumptionsMetadata rest with
      | .error e => .error e
      | .ok ms => .ok (m :: ms)
termination_by l => (sizeOf l, 0)

end

/-- The `for receipt in receipts` loop of
`CompositeReceipt::verify_integrity_with_context`: verify each non-final
segment receipt and its chaining to the next, threading the running
`prev_image_id`. -/
def verifyChainLoop (ctx : VerifierContext) :
    List SegmentReceipt → Option Digest →
    Except VerificationError (Option Digest)
  | [], prev_image_id => .ok prev_image_id
  | receipt :: rest, prev_image_id =>
    match receipt.verify_integrity_with_context ctx with
    | .error e => .error e
    | .ok () =>
      match receipt.get_metadata with
      | .error e => .error e
      | .ok metadata =>
        match prev_image_id with
        | some id =>
          if id ≠ metadata.pre.digest then .error .ImageVerificationError
          else
            if metadata.exit_code ≠ ExitCode.SystemSplit then
              .error .UnexpectedExitCode
            else if !metadata.output.isNone then .error .ReceiptFormatError
            else verifyChainLoop ctx rest (some metadata.post.digest)
        | none =>
          if metadata.exit_code ≠ ExitCode.SystemSplit then
            .error .UnexpectedExitCode
          else if !metadata.output.isNone then .error .ReceiptFormatError
          else verifyChainLoop ctx rest (some metadata.post.digest)

mutual

/-- Model of `InnerReceipt::verify_integrity_with_context`. -/
def InnerReceipt.verify_integrity_with_context :
    InnerReceipt → VerifierContext → Except VerificationError Unit
  | .Composite c, ctx => c.verify_integrity_with_context ctx
  | .Groth16 sealOk _, _ =>
    -- `Groth16Receipt::verify_integrity`: the Groth16 proof oracle.
    if sealOk then .ok () else .error .InvalidProof
  | .Succinct sealOk _, ctx =>
    -- `SuccinctReceipt::verify_integrity_with_context`: the recursion
    -- circuit oracle.
    let _ := ctx
    if sealOk then .ok () else .error .InvalidProof
  | .Fake _, ctx =>
    if ctx.devMode then .ok () else .error .InvalidProof
termination_by r _ => (sizeOf r, 2)

/-- Model of `CompositeReceipt::verify_integrity_with_context`: verify the
continuation by verifying every segment receipt in order, the chaining
between them, all assumption receipts, and the output consistency. -/
def CompositeReceipt.verify_integrity_with_context :
    CompositeReceipt → VerifierContext → Except VerificationError Unit
  | .mk segments assumptions jdOpt, ctx =>
    -- `split_last` returns `None` exactly when `segments` is empty.
    match segments.getLast? with
    | none => .error .ReceiptFormatError
    | some final_receipt =>
      match verifyChainLoop ctx segments.dropLast none with
      | .error e => .error e
      | .ok prev_image_id =>
        match final_receipt.verify_integrity_with_context ctx with
        | .error e => .error e
        | .ok () =>
          match final_receipt.get_metadata with
          | .error e => .error e
          | .ok final_receipt_metadata =>
            match prev_image_id with
            | some id =>
              if id ≠ final_receipt_metadata.pre.digest then
                .error .ImageVerificationError
              else
                match verifyAssumptions assumptions ctx with
                | .error e => .error e
                | .ok () =>
                  CompositeReceipt.verify_output_consistency
                    (.mk segments assumptions jdOpt) final_receipt_metadata
            | none =>
              match verifyAssumptions assumptions ctx with
              | .error e => .error e
              | .ok () =>
                CompositeReceipt.verify_output_consistency
                  (.mk segments assumptions jdOpt) final_receipt_metadata
termination_by c _ => (sizeOf c, 1)

/-- The `for receipt in self.assumptions` loop of
`CompositeReceipt::verify_integrity_with_context`: verify all corroborating
receipts attached to a composite receipt. -/
def verifyAssumptions :
    List InnerReceipt → VerifierContext → Except VerificationError Unit
  | [], _ => .ok ()
  | receipt :: rest, ctx =>
    match receipt.get_metadata with
    | .error e => .error e
    | .ok _ =>
      match receipt.verify_integrity_with_context ctx with
      | .error e => .error e
      | .ok () => verifyAssumptions rest ctx
termination_by l _ => (sizeOf l, 0)

end

/-- Model of `Journal`: the raw bytes of the public commitment. -/
structure Journal where
  bytes : List Nat
deriving DecidableEq, Repr

/-- Model of `Receipt`: the polymorphic inner receipt together with the declared
journal. -/
structure Receipt where
  inner : InnerReceipt
  journal : Journal

/-- Model of `Receipt::verify_with_context` (also the body of `Receipt::verify`,
which passes the default context): verify a successful execution from the
given `image_id`. -/
def Receipt.verify_with_context (r : Receipt) (ctx : VerifierContext)
    (image_id : Digest) : Except VerificationError Unit :=
  match r.inner.verify_integrity_with_context ctx with
  | .error e => .error e
  | .ok () =>
    match r.inner.get_metadata with
    | .error e => .error e
    | .ok metadata =>
      if metadata.pre.digest ≠ image_id then .error .ImageVerificationError
      else
        match metadata.exit_code with
        | .Halted 0 | .Paused 0 =>
          let expected_output : Output :=
            { journal_digest := journalDigest r.journal.bytes,
              assumptions_digest := assumptionsListDigest [] }
          if optOutputDigest metadata.output ≠ expected_output.digest then
            let empty_output := metadata.output.isNone &&
              r.journal.bytes.isEmpty
            if !empty_output then .error .JournalDigestMismatch else .ok ()
          else .ok ()
        | _ => .error .UnexpectedExitCode

/-- Model of `Receipt::verify_integrity_with_context`: verify the integrity of the
receipt and that the declared journal is attested to by the inner receipt,
without constraining the exit code or image. -/
def Receipt.verify_integrity_with_context (r : Receipt)
    (ctx : VerifierContext) : Except VerificationError Unit :=
  match r.inner.verify_integrity_with_context ctx with
  | .error e => .error e
  | .ok () =>
    match r.inner.get_metadata with
    | .error e => .error e
    | .ok metadata =>
      let expected_output : Option Output :=
        if metadata.exit_code.expects_output then
          some { journal_digest := journalDigest r.journal.bytes,
                 assumptions_digest := assumptionsListDigest [] }
        else none
      if optOutputDigest metadata.output ≠ optOutputDigest expected_output
      then
        let empty_output := metadata.output.isNone && r.journal.bytes.isEmpty
        if !empty_output then .error .JournalDigestMismatch else .ok ()
      else .ok ()

/-! ## Continuation executor (`host/server/exec/executor.rs`) -/

/-- Constant `WORD_SIZE`.  Modelled from the spec: `risc0_zkvm_platform`'s constants
module is not under `src/`; one RV32 word is 4 bytes ("pc advanced by one
word"). -/
def WORD_SIZE : Nat := 4

/-- Constant `DIGEST_WORDS`.  Modelled from the spec: a digest region is 32 bytes
(§4.2 Halt/Input read "a 32-byte output-digest region"), i.e. 8 words. -/
def DIGEST_WORDS : Nat := 8

/-- Constant `SHA_CYCLES`: the number of cycles required to compress a SHA-256
block. -/
def SHA_CYCLES : Nat := 73

/-- Constant `BIGINT_CYCLES`: number of cycles required to complete a BigInt
operation. -/
def BIGINT_CYCLES : Nat := 9

/-- Constant `bigint::WIDTH_WORDS`.  Modelled from the spec: BigInt operands are
256-bit (§4.2), i.e. 8 words. -/
def BIGINT_WIDTH_WORDS : Nat := 8

/-- Constant `halt::TERMINATE`.  Modelled from the spec: the halt-type selector for
termination (`risc0_zkvm_platform::syscall::halt` is not under `src/`; only
distinctness from `PAUSE` matters). -/
def HALT_TERMINATE : Nat := 0

/-- Constant `halt::PAUSE`.  Modelled from the spec: the halt-type selector for
pausing. -/
def HALT_PAUSE : Nat := 1

/-- Modelled from the spec (§6): the guest-addressable region.  Addresses at
or above this bound are always invalid (`GUEST_MAX_MEM`). -/
def GUEST_MAX_MEM : Nat := 0xC0000000

/-- Modelled from the spec (§6): `is_guest_memory` — whether an address lies
inside the guest-addressable region. -/
def is_guest_memory (addr : Nat) : Bool :=
  decide (0x400 ≤ addr) && decide (addr < GUEST_MAX_MEM)

/-- Utility `align_up`.  Modelled from the spec: the crate utility (its defining
module is not under `src/`) rounds `n` up to the next multiple of the
alignment `al`. -/
def align_up (n al : Nat) : Nat :=
  ((n + al - 1) / al) * al

/-- Utility `risc0_zkp::core::log2_ceil`.  Modelled from the spec: ceiling of the
base-2 logarithm ("po2 = ceil_log2(total_cycles)", §4.3). -/
def log2_ceil (v : Nat) : Nat :=
  Nat.clog 2 v

/-- Utility `usize::next_power_of_two`.  Modelled from the spec: the least power of
two that is `≥ n` (returns 1 for `n ≤ 1`), as in Rust. -/
def next_power_of_two (n : Nat) : Nat :=
  2 ^ Nat.clog 2 n

/-- Model of `SyscallRecord`: replay log entry for one software syscall. -/
structure SyscallRecord where
  to_guest : List Nat
  regs : Nat × Nat
deriving DecidableEq, Repr

/-- Model of `OpCodeResult`: result of executing one instruction — the next pc, an
optional terminal exit code and the instruction's extra cycle cost. -/
structure OpCodeResult where
  pc : Nat
  exit_code : Option ExitCode
  extra_cycles : Nat
deriving DecidableEq, Repr

/-- Modelled from the spec (§4.1): `MemoryMonitor` — wraps the memory image,
tracks per-segment paging cycle costs and supports speculative undo back to
the last committed checkpoint.  The memory representation is abstract (`M`);
only the checkpoint discipline matters for the claims. -/
structure Monitor (M : Type) where
  /-- Memory as of the last `commit`. -/
  committed : M
  /-- Current (possibly speculative) memory. -/
  current : M
  /-- Field `page_read_cycles` charged in the current segment. -/
  page_read_cycles : Nat
  /-- Field `page_write_cycles` charged in the current segment. -/
  page_write_cycles : Nat
deriving DecidableEq, Repr

/-- Modelled from the spec (§4.1): `undo()` reverts all loads/stores since
the last commit. -/
def Monitor.undo (m : Monitor M) : Monitor M :=
  { m with current := m.committed }

/-- Modelled from the spec (§4.1): `commit(cycle)` advances the
checkpoint. -/
def Monitor.commit (m : Monitor M) : Monitor M :=
  { m with committed := m.current }

/-- The executor state carried across `step()` calls (the fields of
`ExecutorImpl` that the stepping logic reads and writes). -/
structure ExecState (M : Type) where
  monitor : Monitor M
  pc : Nat
  init_cycles : Nat
  body_cycles : Nat
  segment_limit : Nat
  segment_cycle : Nat
  /-- Count `self.segments.len()`. -/
  segments_len : Nat
  insn_counter : Nat
  split_insn : Option Nat
  const_cycles : Nat
  pending_syscall : Option SyscallRecord
  syscalls : List SyscallRecord
deriving DecidableEq, Repr

/-- Model of `ExecutorImpl::total_cycles`. -/
def ExecState.total_cycles (st : ExecState M) : Nat :=
  st.const_cycles + st.monitor.page_read_cycles
    + st.monitor.page_write_cycles + st.body_cycles

/-- Model of `ExecutorImpl::session_cycle`. -/
def ExecState.session_cycle (st : ExecState M) : Nat :=
  st.segments_len * st.segment_limit + st.segment_cycle

/-- Model of `ExecutorImpl::advance`: commit the instruction — advance pc, bump the
instruction and body-cycle counters, refresh `segment_cycle`, commit memory
and record any pending syscall for replay.  (Trace-observer events are
ignored: the observer is a side-effect-free injected interface, §9.) -/
def ExecState.advance (st : ExecState M) (opcode_cycles : Nat)
    (op_result : OpCodeResult) : ExecState M × Option ExitCode :=
  let st := { st with
    pc := op_result.pc,
    insn_counter := st.insn_counter + 1,
    body_cycles := st.body_cycles + opcode_cycles + op_result.extra_cycles }
  let st := { st with
    segment_cycle :=
      st.init_cycles + st.monitor.page_read_cycles + st.body_cycles }
  let st := { st with monitor := st.monitor.commit }
  let st :=
    match st.pending_syscall with
    | some syscall =>
      { st with syscalls := st.syscalls ++ [syscall],
                pending_syscall := none }
    | none => st
  (st, op_result.exit_code)

/-- The tail of `ExecutorImpl::step` (executor.rs lines 476-503): decide
between an unrecoverable over-budget instruction, a `SystemSplit`, and a
normal commit via `advance`.  `pre_cycles` is `total_cycles()` captured at
the top of `step`, before the instruction executed speculatively; `st` is
the state after the speculative execution. -/
def ExecState.step_finish (st : ExecState M) (pre_cycles : Nat)
    (opcode_cycles : Nat) (op_result : OpCodeResult) :
    Except String (ExecState M × Option ExitCode) :=
  let total_pending_cycles :=
    st.total_cycles + opcode_cycles + op_result.extra_cycles
  if total_pending_cycles - pre_cycles > st.segment_limit then
    .error ("execution of instruction resulted in a cycle count too large to fit into a single segment")
  else if total_pending_cycles > st.segment_limit then
    .ok ({ st with split_insn := some st.insn_counter,
                   monitor := st.monitor.undo },
         some ExitCode.SystemSplit)
  else
    .ok (st.advance opcode_cycles op_result)

/-- A `Segment` record as emitted into the session.  Modelled from the spec
(§3): the `Segment` struct itself lives in `session.rs`, whose
current-generation version is not under `src/`. -/
structure SegmentRec where
  post_image_id : Digest
  exit_code : ExitCode
  split_insn : Option Nat
  po2 : Nat
  index : Nat
  cycle_count : Nat
deriving DecidableEq, Repr

/-- The segment-emission computation of
`ExecutorImpl::run_guest_only_with_callback` (executor.rs lines 300-323):
assert the cycle budget, then build the `Segment` with
`po2 = log2_ceil(total_cycles.next_power_of_two())` and
`cycle_count = body_cycles`.  The `assert!` is modelled as returning
`none`. -/
def ExecState.emitSegment (st : ExecState M) (exit_code : ExitCode)
    (post_image_id : Digest) : Option SegmentRec :=
  if st.total_cycles ≤ st.segment_limit then
    some { post_image_id := post_image_id,
           exit_code := exit_code,
           split_insn := st.split_insn,
           po2 := log2_ceil (next_power_of_two st.total_cycles),
           index := st.segments_len,
           cycle_count := st.body_cycles }
  else none

/-- The `segment_limit_po2` validation of `ExecutorImpl::with_obj_ctx`
(executor.rs lines 179-183): reject a configured power of two outside
`[MIN_CYCLES_PO2, MAX_CYCLES_PO2]`.  The two bounds are parameters because
`risc0_zkp`'s constants are not under `src/`. -/
def checkSegmentLimitPo2 (minPo2 maxPo2 segment_limit_po2 : Nat) :
    Except String Nat :=
  if segment_limit_po2 < minPo2 || segment_limit_po2 > maxPo2 then
    .error ("Invalid segment_limit_po2")
  else .ok (2 ^ segment_limit_po2)

/-- Interpret a list of 32-bit words as a little-endian natural number
(`U256::from_le_bytes` after the word-wise little-endian load in
`ecall_bigint`). -/
def fromLeWords (ws : List Nat) : Nat :=
  ws.foldr (fun w acc => w % 2 ^ 32 + acc * 2 ^ 32) 0

/-- Encode a natural number as `BIGINT_WIDTH_WORDS` little-endian 32-bit
words (`U256::to_le_bytes` before the word-wise store in `ecall_bigint`). -/
def toLeWords (n : Nat) : List Nat :=
  (List.range BIGINT_WIDTH_WORDS).map (fun i => n / 2 ^ (32 * i) % 2 ^ 32)

/-- What `ecall_halt` does besides its `OpCodeResult`: the guest-memory
region it reads (`load_array_from_guest_addr::<{DIGEST_WORDS * WORD_SIZE}>`
at the output pointer). -/
structure HaltEffect where
  /-- Pair `(address, byte length)` of the output-digest region read. -/
  read_region : Nat × Nat
  result : OpCodeResult
deriving DecidableEq, Repr

/-- Model of `ExecutorImpl::ecall_halt` (executor.rs lines 555-576): the packed
register `tot_reg` is read from `REG_A0` and the output pointer from
`REG_A1`; `halt_type` is the low byte and `user_exit` the next byte; a
32-byte output-digest region is read; `TERMINATE` halts in place and `PAUSE`
pauses with the pc advanced one word.  An output pointer outside guest
memory faults (the monitor's guest-address check, §4.1). -/
def ecall_halt (pc tot_reg output_ptr : Nat) : Except String HaltEffect :=
  if !is_guest_memory output_ptr then
    .error ("address is an invalid guest address")
  else
    let halt_type := tot_reg % 0x100
    let user_exit := tot_reg / 0x100 % 0x100
    if halt_type = HALT_TERMINATE then
      .ok { read_region := (output_ptr, DIGEST_WORDS * WORD_SIZE),
            result := { pc := pc, exit_code := some (.Halted user_exit),
                        extra_cycles := 0 } }
    else if halt_type = HALT_PAUSE then
      .ok { read_region := (output_ptr, DIGEST_WORDS * WORD_SIZE),
            result := { pc := pc + WORD_SIZE,
                        exit_code := some (.Paused user_exit),
                        extra_cycles := 0 } }
    else .error ("Illegal halt type")

/-- Model of `ExecutorImpl::ecall_bigint` (executor.rs lines 642-693): reads the
256-bit little-endian operands `x`, `y`, `n` (as words `xw`, `yw`, `nw`)
and writes `z = x*y mod n`, or the plain product when `n == 0`.  The plain
product is computed with `U256::checked_mul(..).unwrap()`, so a product that
does not fit in 256 bits is a (deterministic) runtime failure, modelled as
an error, never a wrapped store. -/
def ecall_bigint (pc op : Nat) (xw yw nw : List Nat) :
    Except String (List Nat × OpCodeResult) :=
  if op ≠ 0 then .error ("ecall_bigint preflight: op must be set to 0")
  else
    let x := fromLeWords xw
    let y := fromLeWords yw
    let n := fromLeWords nw
    if n = 0 then
      -- `x.checked_mul(&y).unwrap()`: a 256-bit overflow aborts.
      if x * y < 2 ^ 256 then
        .ok (toLeWords (x * y),
             { pc := pc + WORD_SIZE, exit_code := none,
               extra_cycles := BIGINT_CYCLES })
      else .error ("checked_mul returned None: unwrap failed")
    else
      -- `mul_wide`/`concat`/`rem` over `U512`, then `resize` back: the
      -- 512-bit remainder is `< n ≤ 2^256`, so the resize is lossless.
      .ok (toLeWords (x * y % n),
           { pc := pc + WORD_SIZE, exit_code := none,
             extra_cycles := BIGINT_CYCLES })

/-- What `ecall_software` does: the guest-memory write, the result
registers, the new pending-syscall record and the `OpCodeResult`. -/
structure SoftwareEffect where
  /-- Pair `(address, words)` written back to the guest, or `none` when the guest
  passed a null `to_guest` pointer. -/
  to_guest_write : Option (Nat × List Nat)
  /-- Values stored to `REG_A0` / `REG_A1`. -/
  a0 : Nat
  a1 : Nat
  /-- The pending syscall record after the call. -/
  pending_syscall : Option SyscallRecord
  result : OpCodeResult
deriving DecidableEq, Repr

/-- Model of `ExecutorImpl::ecall_software` (executor.rs lines 695-750): dispatch a
named host syscall.  The handler table maps a syscall name to the `to_guest`
words it produces (of length `to_guest_words`) and the two result registers;
an unregistered name is an error.  If a `pending_syscall` record exists (the
instruction is being re-executed before its previous attempt was committed),
the recorded record is reused verbatim and the handler is not consulted. -/
def ecall_software (pc to_guest_ptr to_guest_words : Nat) (name : String)
    (pending : Option SyscallRecord)
    (syscall_table : String → Option (List Nat × Nat × Nat)) :
    Except String SoftwareEffect :=
  if !is_guest_memory to_guest_ptr && to_guest_ptr ≠ 0 then
    .error ("address is an invalid guest address")
  else
    let chunks := align_up to_guest_words WORD_SIZE
    let syscallResult : Except String SyscallRecord :=
      match pending with
      | some syscall => .ok syscall
      | none =>
        match syscall_table name with
        | none => .error ("Unknown syscall")
        | some (to_guest, a0, a1) => .ok { to_guest := to_guest, regs := (a0, a1) }
    match syscallResult with
    | .error e => .error e
    | .ok syscall =>
      .ok { to_guest_write :=
              if to_guest_ptr ≠ 0 then some (to_guest_ptr, syscall.to_guest)
              else none,
            a0 := syscall.regs.1,
            a1 := syscall.regs.2,
            pending_syscall := some syscall,
            result := { pc := pc + WORD_SIZE, exit_code := none,
                        extra_cycles := 1 + chunks + 1 } }

/-! ## Claims about the executor -/

/-- Claim C5: For every step of the executor: if the pending segment cycle
count (current segment cycles plus the instruction's base cost plus its
extra cycles) exceeds the segment cycle budget, the step undoes all memory
effects since the last commit, records the current instruction index as the
split point, and returns `SystemSplit` with pc unchanged; if the single
instruction's own cost alone exceeds the configured budget, the step instead
fails with an unrecoverable error. -/
theorem C5_step_split_decision {M : Type} (st : ExecState M)
    (pre_cycles opcode_cycles : Nat) (op_result : OpCodeResult) :
    (st.total_cycles + opcode_cycles + op_result.extra_cycles - pre_cycles >
        st.segment_limit →
      ∃ e, st.step_finish pre_cycles opcode_cycles op_result =
        Except.error e)
    ∧ (st.total_cycles + opcode_cycles + op_result.extra_cycles - pre_cycles ≤
        st.segment_limit →
      st.total_cycles + opcode_cycles + op_result.extra_cycles >
        st.segment_limit →
      st.step_finish pre_cycles opcode_cycles op_result =
        Except.ok ({ st with split_insn := some st.insn_counter,
                             monitor := st.monitor.undo },
                   some ExitCode.SystemSplit)
      ∧ ({ st with split_insn := some st.insn_counter,
                   monitor := st.monitor.undo } : ExecState M).pc = st.pc
      ∧ ({ st with split_insn := some st.insn_counter,
                   monitor := st.monitor.undo } : ExecState M).monitor.current
          = st.monitor.committed) := by
  constructor
  · intro hover
    exact ⟨_, by simp only [ExecState.step_finish]; rw [if_pos hover]⟩
  · intro hsingle hpending
    have hc1 : ¬ (st.total_cycles + opcode_cycles + op_result.extra_cycles
        - pre_cycles > st.segment_limit) := by omega
    refine ⟨?_, rfl, rfl⟩
    simp only [ExecState.step_finish]
    rw [if_neg hc1, if_pos hpending]

/-- Witness for C5: at a concrete state 1 cycle over the budget, the step
splits: memory reverts to the committed checkpoint, the split point is
recorded and `SystemSplit` is returned with the pc unchanged. -/
theorem C5_step_split_decision_witness :
    (let st : ExecState Nat :=
      { monitor := ⟨0, 7, 0, 0⟩, pc := 100, init_cycles := 0,
        body_cycles := 10, segment_limit := 10, segment_cycle := 10,
        segments_len := 0, insn_counter := 3, split_insn := none,
        const_cycles := 0, pending_syscall := none, syscalls := [] }
     st.step_finish 10 1 ⟨104, none, 0⟩ =
       Except.ok ({ st with split_insn := some 3,
                            monitor := st.monitor.undo },
                  some ExitCode.SystemSplit)) := by
  exact ((C5_step_split_decision _ 10 1 ⟨104, none, 0⟩).2 (by decide)
          (by decide)).1

/-- Claim C6: For every Segment emitted by the engine into a Session,
`cycle_count ≤ 2^po2`, and `po2` lies inside
`[MIN_CYCLES_PO2, MAX_CYCLES_PO2]`.  The hypotheses record what the code in
`src/` establishes: `with_obj_ctx` validated `segment_limit = 2^lp2` with
`lp2` inside the bounds, and the run loop asserted
`total_cycles ≤ segment_limit` before emitting; `hfloor` is the
spec-modelled segment floor (the loader's fixed init/fini cycle counts are
not under `src/`; §4.3's invariant requires every segment to exceed half the
minimum size). -/
theorem C6_segment_cycle_bounds {M : Type} (st : ExecState M)
    (minPo2 maxPo2 lp2 : Nat) (seg : SegmentRec) (e : ExitCode) (d : Digest)
    (_hlo : minPo2 ≤ lp2) (hhi : lp2 ≤ maxPo2)
    (hlimit : st.segment_limit = 2 ^ lp2)
    (hfloor : 2 ^ (minPo2 - 1) < st.total_cycles)
    (hemit : st.emitSegment e d = some seg) :
    seg.cycle_count ≤ 2 ^ seg.po2 ∧ minPo2 ≤ seg.po2 ∧ seg.po2 ≤ maxPo2 := by
  have h2 : (1 : Nat) < 2 := by omega
  unfold ExecState.emitSegment at hemit
  by_cases hle : st.total_cycles ≤ st.segment_limit
  · rw [if_pos hle] at hemit
    have hseg := (Option.some.injEq _ _).mp hemit
    have hpo2 : seg.po2 = Nat.clog 2 st.total_cycles := by
      rw [← hseg]
      simp [log2_ceil, next_power_of_two, Nat.clog_pow _ _ h2]
    have hcc : seg.cycle_count = st.body_cycles := by rw [← hseg]
    have hbody : st.body_cycles ≤ st.total_cycles := by
      unfold ExecState.total_cycles; omega
    refine ⟨?_, ?_, ?_⟩
    · calc seg.cycle_count = st.body_cycles := hcc
        _ ≤ st.total_cycles := hbody
        _ ≤ 2 ^ Nat.clog 2 st.total_cycles := Nat.le_pow_clog h2 _
        _ = 2 ^ seg.po2 := by rw [hpo2]
    · rw [hpo2]
      have := (Nat.pow_lt_iff_lt_clog h2).mp hfloor
      omega
    · rw [hpo2]
      have : Nat.clog 2 st.total_cycles ≤ lp2 :=
        (Nat.le_pow_iff_clog_le h2).mp (hlimit ▸ hle)
      omega
  · rw [if_neg hle] at hemit
    exact absurd hemit (by simp)

/-- Witness for C6: a concrete 8000-total-cycle state under a 2^13 budget
emits a segment with `cycle_count = 3000 ≤ 2^13 = 2^po2` and
`po2 = 13 ∈ [13, 24]`. -/
theorem C6_segment_cycle_bounds_witness :
    ∃ seg : SegmentRec,
      ({ monitor := ⟨0, 0, 0, 0⟩, pc := 0, init_cycles := 0,
         body_cycles := 3000, segment_limit := 8192, segment_cycle := 0,
         segments_len := 0, insn_counter := 0, split_insn := none,
         const_cycles := 5000, pending_syscall := none,
         syscalls := [] } : ExecState Nat).emitSegment
          ExitCode.SystemSplit Digest.zero = some seg
      ∧ seg.cycle_count ≤ 2 ^ seg.po2 ∧ 13 ≤ seg.po2 ∧ seg.po2 ≤ 24 := by
  have hclog : Nat.clog 2 8000 = 13 := by
    have h1 : Nat.clog 2 8000 ≤ 13 :=
      (Nat.le_pow_iff_clog_le (by omega)).mp (by norm_num)
    have h2 : 12 < Nat.clog 2 8000 :=
      (Nat.pow_lt_iff_lt_clog (by omega)).mp (by norm_num)
    omega
  have hpo2 : log2_ceil (next_power_of_two 8000) = 13 := by
    rw [next_power_of_two, hclog, log2_ceil]
    exact Nat.clog_pow _ _ (by omega)
  have hemit :
      ({ monitor := ⟨0, 0, 0, 0⟩, pc := 0, init_cycles := 0,
         body_cycles := 3000, segment_limit := 8192, segment_cycle := 0,
         segments_len := 0, insn_counter := 0, split_insn := none,
         const_cycles := 5000, pending_syscall := none,
         syscalls := [] } : ExecState Nat).emitSegment
          ExitCode.SystemSplit Digest.zero =
        some { post_image_id := Digest.zero,
               exit_code := ExitCode.SystemSplit, split_insn := none,
               po2 := 13, index := 0, cycle_count := 3000 } := by
    rw [ExecState.emitSegment]
    rw [if_pos (by simp [ExecState.total_cycles])]
    simp [ExecState.total_cycles, hpo2]
  exact ⟨_, hemit, C6_segment_cycle_bounds _ 13 24 13 _ _ _ (by omega)
    (by omega) (by norm_num) (by norm_num [ExecState.total_cycles]) hemit⟩

/-- Claim C8: For every BigInt-modmul ECall with 256-bit little-endian
operands `x`, `y`, `n`: when `n ≠ 0` the ecall writes `z = x*y mod n` and
costs 9 extra cycles; when `n == 0` it writes the plain product `x*y`, and
if that product does not fit in 256 bits the ecall fails rather than
writing a wrapped result (in particular for `x = 2^255`, `y = 2` it fails
deterministically). -/
theorem C8_bigint_modmul (pc : Nat) (xw yw nw : List Nat) :
    (fromLeWords nw ≠ 0 →
      ecall_bigint pc 0 xw yw nw =
        Except.ok (toLeWords (fromLeWords xw * fromLeWords yw % fromLeWords nw),
          { pc := pc + WORD_SIZE, exit_code := none,
            extra_cycles := BIGINT_CYCLES }))
    ∧ (fromLeWords nw = 0 →
        fromLeWords xw * fromLeWords yw < 2 ^ 256 →
      ecall_bigint pc 0 xw yw nw =
        Except.ok (toLeWords (fromLeWords xw * fromLeWords yw),
          { pc := pc + WORD_SIZE, exit_code := none,
            extra_cycles := BIGINT_CYCLES }))
    ∧ (fromLeWords nw = 0 →
        2 ^ 256 ≤ fromLeWords xw * fromLeWords yw →
      ∃ e, ecall_bigint pc 0 xw yw nw = Except.error e)
    ∧ BIGINT_CYCLES = 9 := by
  refine ⟨?_, ?_, ?_, rfl⟩
  · intro hn
    simp [ecall_bigint, hn]
  · intro hn hfit
    rw [ecall_bigint]
    rw [if_neg (by decide : ¬ ((0 : Nat) ≠ 0))]
    simp only [hn, if_pos rfl]
    rw [if_pos hfit]
    simp
  · intro hn hbig
    refine ⟨"checked_mul returned None: unwrap failed", ?_⟩
    rw [ecall_bigint]
    rw [if_neg (by decide : ¬ ((0 : Nat) ≠ 0))]
    simp only [hn, if_pos rfl]
    rw [if_neg (show ¬ (fromLeWords xw * fromLeWords yw < 2 ^ 256) by
      omega)]
    simp

/-- Witness for C8: with `n = 0`, `x = 2^255`, `y = 2` (little-endian
words), the ecall fails deterministically on overflow; with `n = 7`,
`x = 3`, `y = 5` it writes `15 mod 7 = 1` at cost 9. -/
theorem C8_bigint_modmul_witness :
    (∃ e, ecall_bigint 0 0 [0, 0, 0, 0, 0, 0, 0, 0x80000000]
        [2, 0, 0, 0, 0, 0, 0, 0] [0, 0, 0, 0, 0, 0, 0, 0] =
        Except.error e)
    ∧ ecall_bigint 0 0 [3, 0, 0, 0, 0, 0, 0, 0] [5, 0, 0, 0, 0, 0, 0, 0]
        [7, 0, 0, 0, 0, 0, 0, 0] =
        Except.ok (toLeWords 1,
          { pc := 0 + WORD_SIZE, exit_code := none, extra_cycles := 9 }) := by
  constructor
  · exact (C8_bigint_modmul 0 [0, 0, 0, 0, 0, 0, 0, 0x80000000]
      [2, 0, 0, 0, 0, 0, 0, 0] [0, 0, 0, 0, 0, 0, 0, 0]).2.2.1
      (by decide) (by norm_num [fromLeWords])
  · have := (C8_bigint_modmul 0 [3, 0, 0, 0, 0, 0, 0, 0]
      [5, 0, 0, 0, 0, 0, 0, 0] [7, 0, 0, 0, 0, 0, 0, 0]).1
      (by norm_num [fromLeWords])
    simpa [fromLeWords] using this

/-- Claim C9: For every Halt ECall: the halt type is the low byte and
`user_exit` the next byte of the packed register, a 32-byte output-digest
region is read, and 0 extra cycles are charged; a `TERMINATE` type yields
exit code `Halted(user_exit)` with pc unchanged, a `PAUSE` type yields
`Paused(user_exit)` with pc advanced by one word, and any other halt type is
an error. -/
theorem C9_halt (pc tot_reg output_ptr : Nat)
    (hptr : is_guest_memory output_ptr = true) :
    (tot_reg % 0x100 = HALT_TERMINATE →
      ecall_halt pc tot_reg output_ptr =
        Except.ok { read_region := (output_ptr, 32),
                    result := { pc := pc,
                                exit_code :=
                                  some (.Halted (tot_reg / 0x100 % 0x100)),
                                extra_cycles := 0 } })
    ∧ (tot_reg % 0x100 = HALT_PAUSE →
      ecall_halt pc tot_reg output_ptr =
        Except.ok { read_region := (output_ptr, 32),
                    result := { pc := pc + WORD_SIZE,
                                exit_code :=
                                  some (.Paused (tot_reg / 0x100 % 0x100)),
                                extra_cycles := 0 } })
    ∧ (tot_reg % 0x100 ≠ HALT_TERMINATE → tot_reg % 0x100 ≠ HALT_PAUSE →
      ∃ e, ecall_halt pc tot_reg output_ptr = Except.error e)
    ∧ DIGEST_WORDS * WORD_SIZE = 32 := by
  refine ⟨?_, ?_, ?_, rfl⟩
  · intro hterm
    simp [ecall_halt, hptr, hterm, DIGEST_WORDS, WORD_SIZE]
  · intro hpause
    simp [ecall_halt, hptr, hpause, DIGEST_WORDS, WORD_SIZE,
          HALT_PAUSE, HALT_TERMINATE]
  · intro hne1 hne2
    refine ⟨"Illegal halt type", ?_⟩
    simp [ecall_halt, hptr, hne1, hne2]

/-- Witness for C9: packed register `0x0200` (halt type `TERMINATE`, user
exit 2) at a valid output pointer halts in place with `Halted 2` after
reading the 32-byte digest region. -/
theorem C9_halt_witness :
    ecall_halt 64 0x0200 0x1000 =
      Except.ok { read_region := (0x1000, 32),
                  result := { pc := 64, exit_code := some (.Halted 2),
                              extra_cycles := 0 } } := by
  exact (C9_halt 64 0x0200 0x1000 (by decide)).1 (by decide)

/-- Claim C7: For every software-syscall ECall: on first execution the named
host handler is invoked and its `to_guest` bytes and two result registers
are recorded, and the extra cycle cost is `1 + ceil(words_requested) + 1`
(the word count rounded up by `align_up`); if the same instruction is
re-executed before the previous attempt was committed, the recorded
`to_guest` bytes and result registers are reused verbatim and the handler is
not invoked again (the outcome is independent of the handler table). -/
theorem C7_software_syscall (pc to_guest_ptr to_guest_words : Nat)
    (name : String)
    (table table2 : String → Option (List Nat × Nat × Nat))
    (hptr : is_guest_memory to_guest_ptr = true) :
    (∀ to_guest a0 a1, table name = some (to_guest, a0, a1) →
      ecall_software pc to_guest_ptr to_guest_words name none table =
        Except.ok
          { to_guest_write := some (to_guest_ptr, to_guest),
            a0 := a0, a1 := a1,
            pending_syscall := some { to_guest := to_guest,
                                      regs := (a0, a1) },
            result := { pc := pc + WORD_SIZE, exit_code := none,
                        extra_cycles :=
                          1 + align_up to_guest_words WORD_SIZE + 1 } })
    ∧ (∀ rec : SyscallRecord,
      ecall_software pc to_guest_ptr to_guest_words name (some rec) table =
        Except.ok
          { to_guest_write := some (to_guest_ptr, rec.to_guest),
            a0 := rec.regs.1, a1 := rec.regs.2,
            pending_syscall := some rec,
            result := { pc := pc + WORD_SIZE, exit_code := none,
                        extra_cycles :=
                          1 + align_up to_guest_words WORD_SIZE + 1 } }
      ∧ ecall_software pc to_guest_ptr to_guest_words name (some rec) table =
        ecall_software pc to_guest_ptr to_guest_words name (some rec)
          table2) := by
  have hnz : to_guest_ptr ≠ 0 := by
    intro h0
    rw [h0] at hptr
    simp [is_guest_memory] at hptr
  constructor
  · intro to_guest a0 a1 htable
    simp [ecall_software, hptr, htable, hnz]
  · intro rec
    constructor
    · simp [ecall_software, hptr, hnz]
    · simp [ecall_software]

/-- Witness for C7: at a concrete pointer and word count, a fresh call
records the handler output at cost `1 + align_up 5 4 + 1 = 10`, and a
replayed call reuses the recorded bytes and registers for any two handler
tables. -/
theorem C7_software_syscall_witness :
    (ecall_software 40 0x1000 5 "read" none
        (fun _ => some ([1, 2, 3, 4, 5], 20, 0)) =
      Except.ok
        { to_guest_write := some (0x1000, [1, 2, 3, 4, 5]),
          a0 := 20, a1 := 0,
          pending_syscall := some { to_guest := [1, 2, 3, 4, 5],
                                    regs := (20, 0) },
          result := { pc := 44, exit_code := none, extra_cycles := 10 } })
    ∧ ecall_software 40 0x1000 5 "read"
        (some { to_guest := [9], regs := (1, 2) })
        (fun _ => some ([1, 2, 3, 4, 5], 20, 0)) =
      ecall_software 40 0x1000 5 "read"
        (some { to_guest := [9], regs := (1, 2) })
        (fun _ => none) := by
  constructor
  · have h := (C7_software_syscall 40 0x1000 5 "read"
      (fun _ => some ([1, 2, 3, 4, 5], 20, 0)) (fun _ => none)
      (by decide)).1 [1, 2, 3, 4, 5] 20 0 rfl
    simpa [align_up, WORD_SIZE] using h
  · exact ((C7_software_syscall 40 0x1000 5 "read"
      (fun _ => some ([1, 2, 3, 4, 5], 20, 0)) (fun _ => none)
      (by decide)).2 { to_guest := [9], regs := (1, 2) }).2

/-! ## Claims about the receipt chain verifier -/

/-- Claim C10: For a CompositeReceipt whose segments list is empty, both
`verify_integrity` and `get_metadata` return `ReceiptFormatError` (they
never panic or succeed on a segmentless receipt; totality of the embedding
reflects the panic-free `split_last`/`first`/`last` accessors). -/
theorem C10_empty_segments (ctx : VerifierContext)
    (assumptions : List InnerReceipt) (jd : Option Digest) :
    (CompositeReceipt.mk [] assumptions jd).verify_integrity_with_context ctx
        = Except.error .ReceiptFormatError
    ∧ (CompositeReceipt.mk [] assumptions jd).get_metadata
        = Except.error .ReceiptFormatError := by
  constructor
  · simp [CompositeReceipt.verify_integrity_with_context]
  · simp [CompositeReceipt.get_metadata, CompositeReceipt.segments]

/-- Claim C2: For every receipt and claimed image_id, `verify(image_id)`
succeeds only when the proven metadata's exit code is `Halted(0)` or
`Paused(0)`; in particular a receipt whose final exit code is `Halted(1)`
(with the proof system and image checks passing) is rejected with
`UnexpectedExitCode`, and a receipt whose first pre-state digest differs
from `image_id` is rejected with `ImageVerificationError`. -/
theorem C2_verify_exit_and_image (r : Receipt) (ctx : VerifierContext)
    (image_id : Digest) :
    (r.verify_with_context ctx image_id = Except.ok () →
      ∃ m, r.inner.get_metadata = Except.ok m ∧
        (m.exit_code = .Halted 0 ∨ m.exit_code = .Paused 0))
    ∧ (∀ m, r.inner.verify_integrity_with_context ctx = Except.ok () →
        r.inner.get_metadata = Except.ok m →
        m.pre.digest = image_id →
        m.exit_code = .Halted 1 →
        r.verify_with_context ctx image_id =
          Except.error .UnexpectedExitCode)
    ∧ (∀ m, r.inner.verify_integrity_with_context ctx = Except.ok () →
        r.inner.get_metadata = Except.ok m →
        m.pre.digest ≠ image_id →
        r.verify_with_context ctx image_id =
          Except.error .ImageVerificationError) := by
  refine ⟨?_, ?_, ?_⟩
  · intro hok
    unfold Receipt.verify_with_context at hok
    cases hint : r.inner.verify_integrity_with_context ctx with
    | error e => rw [hint] at hok; exact absurd hok (by simp)
    | ok u =>
      cases u
      rw [hint] at hok
      cases hmeta : r.inner.get_metadata with
      | error e => rw [hmeta] at hok; exact absurd hok (by simp)
      | ok m =>
        rw [hmeta] at hok
        simp only at hok
        refine ⟨m, rfl, ?_⟩
        by_cases himg : m.pre.digest ≠ image_id
        · rw [if_pos himg] at hok; exact absurd hok (by simp)
        · rw [if_neg himg] at hok
          cases hexit : m.exit_code with
          | Halted n =>
            cases n with
            | zero => exact Or.inl rfl
            | succ k => rw [hexit] at hok; exact absurd hok (by simp)
          | Paused n =>
            cases n with
            | zero => exact Or.inr rfl
            | succ k => rw [hexit] at hok; exact absurd hok (by simp)
          | SystemSplit => rw [hexit] at hok; exact absurd hok (by simp)
          | SessionLimit => rw [hexit] at hok; exact absurd hok (by simp)
          | Fault => rw [hexit] at hok; exact absurd hok (by simp)
  · intro m hint hmeta himg hexit
    unfold Receipt.verify_with_context
    rw [hint]
    simp only
    rw [hmeta]
    simp only
    rw [if_neg (not_not_intro himg), hexit]
  · intro m hint hmeta himg
    unfold Receipt.verify_with_context
    rw [hint]
    simp only
    rw [hmeta]
    simp only
    rw [if_pos himg]

/-- Witness for C2: a dev-mode fake receipt whose metadata exits with
`Halted(1)` and whose pre digest matches the image id is rejected with
`UnexpectedExitCode`. -/
theorem C2_verify_exit_and_image_witness :
    (Receipt.mk
        (.Fake { pre := ⟨0, .raw 0⟩, post := ⟨4, .raw 1⟩,
                 exit_code := .Halted 1, input := .raw 2, output := none })
        ⟨[]⟩).verify_with_context ⟨true⟩ (SystemState.digest ⟨0, .raw 0⟩) =
      Except.error .UnexpectedExitCode := by
  exact (C2_verify_exit_and_image _ _ _).2.1
    { pre := ⟨0, .raw 0⟩, post := ⟨4, .raw 1⟩,
      exit_code := .Halted 1, input := .raw 2, output := none }
    (by simp [InnerReceipt.verify_integrity_with_context])
    (by simp [InnerReceipt.get_metadata]) rfl rfl

/-- Claim C3 counterexample: a single-segment composite receipt whose final
proven output commits to journal digest `H([1])` while the receipt declares
journal digest `H([2])`: the self output differs from the proven output and
the degenerate case does not apply, yet `verify_integrity` returns
`ReceiptFormatError` — not `JournalDigestMismatch` as the claim states. -/
theorem C3_counterexample :
    (CompositeReceipt.mk
        [{ sealOk := true,
           metadata := { pre := ⟨0, .raw 0⟩, post := ⟨4, .raw 1⟩,
                         exit_code := .Halted 0, input := .raw 2,
                         output := some { journal_digest := journalDigest [1],
                                          assumptions_digest :=
                                            assumptionsListDigest [] } },
           index := 0 }]
        [] (some (journalDigest [2]))).verify_integrity_with_context ⟨false⟩
      = Except.error .ReceiptFormatError
    ∧ (Except.error .ReceiptFormatError : Except VerificationError Unit)
      ≠ Except.error .JournalDigestMismatch := by
  refine ⟨?_, by simp⟩
  · simp [CompositeReceipt.verify_integrity_with_context, verifyChainLoop,
          SegmentReceipt.verify_integrity_with_context,
          SegmentReceipt.get_metadata, verifyAssumptions,
          CompositeReceipt.verify_output_consistency, assumptionsMetadata,
          ExitCode.expects_output, Output.digest, optOutputDigest,
          assumptionsListDigest, journalDigest, digestChain, byteChain]

/-- Claim C3 amended: `CompositeReceipt::verify_integrity` computes a self
output from the receipt's declared `journal_digest` and the digest of the
list of assumption metadatas; when the final segment's proven output is
present, any difference from the self output fails with
`ReceiptFormatError` (with no degenerate escape, since that branch requires
the output to be present); when the proven output is absent, the receipt is
accepted exactly when the assumptions list is empty and no journal digest is
declared, and fails with `ReceiptFormatError` otherwise. -/
theorem C3_output_consistency_amended (segs : List SegmentReceipt)
    (asm : List InnerReceipt) (jdOpt : Option Digest)
    (m : ReceiptMetadata) (ams : List ReceiptMetadata)
    (hexp : m.exit_code.expects_output = true)
    (hams : assumptionsMetadata asm = Except.ok ams) :
    ((∀ o, m.output = some o → jdOpt = none →
      (CompositeReceipt.mk segs asm jdOpt).verify_output_consistency m =
        Except.error .ReceiptFormatError)
    ∧ (∀ o jd, m.output = some o → jdOpt = some jd →
        ({ journal_digest := jd,
           assumptions_digest := assumptionsListDigest ams } : Output) ≠ o →
      (CompositeReceipt.mk segs asm jdOpt).verify_output_consistency m =
        Except.error .ReceiptFormatError)
    ∧ (∀ o jd, m.output = some o → jdOpt = some jd →
        ({ journal_digest := jd,
           assumptions_digest := assumptionsListDigest ams } : Output) = o →
      (CompositeReceipt.mk segs asm jdOpt).verify_output_consistency m =
        Except.ok ())
    ∧ (m.output = none →
      ((CompositeReceipt.mk segs asm jdOpt).verify_output_consistency m =
          Except.ok ()
        ↔ asm = [] ∧ jdOpt = none))
    ∧ (∀ seg : SegmentReceipt, seg.sealOk = true → seg.metadata = m →
        ∀ ctx, verifyAssumptions asm ctx = Except.ok () →
      (CompositeReceipt.mk [seg] asm jdOpt).verify_integrity_with_context ctx
        = (CompositeReceipt.mk [seg] asm jdOpt).verify_output_consistency
            m)) := by
  refine ⟨?_, ?_, ?_, ?_, ?_⟩
  · intro o ho hjd
    subst hjd
    simp [CompositeReceipt.verify_output_consistency, hexp, ho]
  · intro o jd ho hjd hne
    subst hjd
    have hdig : ({ journal_digest := jd,
                   assumptions_digest := assumptionsListDigest ams }
          : Output).digest
        ≠ optOutputDigest (some o) := by
      simp only [optOutputDigest, Output.digest]
      intro hcontra
      apply hne
      cases o
      simp only [Digest.hashOutput.injEq] at hcontra
      simp [hcontra.1, hcontra.2]
    simp [CompositeReceipt.verify_output_consistency, hexp, ho, hams, hdig]
  · intro o jd ho hjd heq
    subst hjd
    have hdig : ({ journal_digest := jd,
                   assumptions_digest := assumptionsListDigest ams }
          : Output).digest
        = optOutputDigest (some o) := by
      subst heq
      rfl
    simp only [CompositeReceipt.verify_output_consistency, hexp, ho, hams]
    simp [hdig]
  · intro ho
    cases jdOpt with
    | none =>
      by_cases ha : asm = []
      · subst ha
        simp [CompositeReceipt.verify_output_consistency, hexp, ho]
      · have ha' : asm.isEmpty = false := by
          cases asm with
          | nil => exact absurd rfl ha
          | cons a t => rfl
        simp [CompositeReceipt.verify_output_consistency, hexp, ho, ha, ha']
    | some jd =>
      simp [CompositeReceipt.verify_output_consistency, hexp, ho]
  · intro seg hseal hsm ctx hasm
    simp [CompositeReceipt.verify_integrity_with_context, verifyChainLoop,
          SegmentReceipt.verify_integrity_with_context, hseal,
          SegmentReceipt.get_metadata, hasm, hsm]

/-- Witness for the amended C3: on the concrete receipt of the
counterexample, the self output (journal digest `H([2])`, empty assumptions)
differs from the proven output (journal digest `H([1])`), and the theorem
yields `ReceiptFormatError` from `verify_output_consistency`. -/
theorem C3_output_consistency_amended_witness :
    (CompositeReceipt.mk
        [{ sealOk := true,
           metadata := { pre := ⟨0, .raw 0⟩, post := ⟨4, .raw 1⟩,
                         exit_code := .Halted 0, input := .raw 2,
                         output := some { journal_digest := journalDigest [1],
                                          assumptions_digest :=
                                            assumptionsListDigest [] } },
           index := 0 }]
        [] (some (journalDigest [2]))).verify_output_consistency
        { pre := ⟨0, .raw 0⟩, post := ⟨4, .raw 1⟩,
          exit_code := .Halted 0, input := .raw 2,
          output := some { journal_digest := journalDigest [1],
                           assumptions_digest := assumptionsListDigest [] } }
      = Except.error .ReceiptFormatError := by
  exact (C3_output_consistency_amended
      [{ sealOk := true,
         metadata := { pre := ⟨0, .raw 0⟩, post := ⟨4, .raw 1⟩,
                       exit_code := .Halted 0, input := .raw 2,
                       output := some { journal_digest := journalDigest [1],
                                        assumptions_digest :=
                                          assumptionsListDigest [] } },
         index := 0 }]
      [] (some (journalDigest [2]))
      { pre := ⟨0, .raw 0⟩, post := ⟨4, .raw 1⟩,
        exit_code := .Halted 0, input := .raw 2,
        output := some { journal_digest := journalDigest [1],
                         assumptions_digest := assumptionsListDigest [] } }
      [] rfl (by simp [assumptionsMetadata])).2.1
    { journal_digest := journalDigest [1],
      assumptions_digest := assumptionsListDigest [] }
    (journalDigest [2]) rfl rfl
    (by simp [journalDigest, byteChain])

/-- Assumption metadata used by the C4 counterexample. -/
def c4AssumptionMeta : ReceiptMetadata :=
  { pre := ⟨8, .raw 10⟩, post := ⟨12, .raw 11⟩, exit_code := .Halted 0,
    input := .raw 12, output := none }

/-- Final-segment metadata of the C4 counterexample: its proven output
commits to journal `H([7])` and to the assumption list
`[c4AssumptionMeta]`. -/
def c4FinalMeta : ReceiptMetadata :=
  { pre := ⟨0, .raw 0⟩, post := ⟨4, .raw 1⟩, exit_code := .Halted 0,
    input := .raw 2,
    output := some { journal_digest := journalDigest [7],
                     assumptions_digest :=
                       assumptionsListDigest [c4AssumptionMeta] } }

/-- The C4 counterexample receipt: a composite receipt with one proven
(succinct) assumption and a consistent journal. -/
def c4Receipt : Receipt :=
  { inner := .Composite (.mk [{ sealOk := true, metadata := c4FinalMeta,
                                index := 0 }]
      [.Succinct true c4AssumptionMeta] (some (journalDigest [7]))),
    journal := ⟨[7]⟩ }

/-- Claim C4 counterexample: the receipt `c4Receipt` carries a non-empty assumptions list,
yet `verify(image_id)` accepts it: the proven assumption is verified during
`verify_integrity` and then erased from the composite's metadata by
`get_metadata`, so the final output check sees an empty assumptions
digest. -/
theorem C4_counterexample :
    c4Receipt.verify_with_context ⟨false⟩ (SystemState.digest ⟨0, .raw 0⟩)
      = Except.ok ()
    ∧ ([.Succinct true c4AssumptionMeta] : List InnerReceipt) ≠ [] := by
  refine ⟨?_, by simp⟩
  simp [c4Receipt, c4FinalMeta, c4AssumptionMeta,
        Receipt.verify_with_context,
        InnerReceipt.verify_integrity_with_context,
        CompositeReceipt.verify_integrity_with_context,
        InnerReceipt.get_metadata, CompositeReceipt.get_metadata,
        CompositeReceipt.segments, CompositeReceipt.assumptions,
        CompositeReceipt.journal_digest, verifyChainLoop,
        verifyAssumptions,
        SegmentReceipt.verify_integrity_with_context,
        SegmentReceipt.get_metadata,
        CompositeReceipt.verify_output_consistency, assumptionsMetadata,
        ExitCode.expects_output, optOutputDigest, Output.digest,
        SystemState.digest, assumptionsListDigest, digestChain,
        journalDigest, byteChain, ReceiptMetadata.digest,
        ExitCode.encodePair]

/-- Claim C4 amended: the entry point `verify(image_id)` does not reject a composite receipt
merely because its assumptions list is non-empty — a composite whose final
output commits to its proven assumptions and whose declared journal matches
is accepted, the assumptions being hidden by `get_metadata`.  What `verify`
rejects with `JournalDigestMismatch` is any receipt whose *proven metadata
output* carries a non-empty assumptions digest (an unresolved conditional
receipt, e.g. in succinct form). -/
theorem C4_assumptions_amended :
    (∀ (pre post : SystemState) (inp : Digest) (am : ReceiptMetadata)
        (bs : List Nat) (ctx : VerifierContext),
      (Receipt.mk
          (.Composite (.mk
            [{ sealOk := true,
               metadata := { pre := pre, post := post,
                             exit_code := .Halted 0, input := inp,
                             output := some { journal_digest :=
                                                journalDigest bs,
                                              assumptions_digest :=
                                                assumptionsListDigest
                                                  [am] } },
               index := 0 }]
            [.Succinct true am] (some (journalDigest bs))))
          ⟨bs⟩).verify_with_context ctx pre.digest = Except.ok ())
    ∧ (∀ (m : ReceiptMetadata) (o : Output) (bs : List Nat)
        (ctx : VerifierContext),
      m.exit_code = .Halted 0 →
      m.output = some o →
      o.assumptions_digest ≠ assumptionsListDigest [] →
      (Receipt.mk (.Succinct true m) ⟨bs⟩).verify_with_context ctx
          m.pre.digest = Except.error .JournalDigestMismatch) := by
  constructor
  · intro pre post inp am bs ctx
    simp [Receipt.verify_with_context,
          InnerReceipt.verify_integrity_with_context,
          CompositeReceipt.verify_integrity_with_context,
          InnerReceipt.get_metadata, CompositeReceipt.get_metadata,
          CompositeReceipt.segments, CompositeReceipt.assumptions,
          CompositeReceipt.journal_digest, verifyChainLoop,
          verifyAssumptions,
          SegmentReceipt.verify_integrity_with_context,
          SegmentReceipt.get_metadata,
          CompositeReceipt.verify_output_consistency, assumptionsMetadata,
          ExitCode.expects_output, optOutputDigest, Output.digest]
  · intro m o bs ctx hexit ho hasm
    have hdig : optOutputDigest m.output ≠
        ({ journal_digest := journalDigest bs,
           assumptions_digest := assumptionsListDigest [] } : Output).digest
        := by
      rw [ho]
      simp only [optOutputDigest, Output.digest]
      intro hcontra
      rw [Digest.hashOutput.injEq] at hcontra
      exact hasm hcontra.2
    unfold Receipt.verify_with_context
    simp only [InnerReceipt.verify_integrity_with_context,
      InnerReceipt.get_metadata, if_true]
    rw [if_neg (not_not_intro rfl), hexit]
    simp only
    rw [if_pos hdig]
    have hsome : m.output.isNone = false := by rw [ho]; rfl
    simp [hsome]

/-- Witness for the amended C4: part (a) at concrete states accepts a
composite receipt carrying one proven assumption; part (b) rejects a
succinct receipt whose output commits to that assumption with
`JournalDigestMismatch`. -/
theorem C4_assumptions_amended_witness :
    (Receipt.mk
        (.Composite (.mk
          [{ sealOk := true,
             metadata := { pre := ⟨0, .raw 0⟩, post := ⟨4, .raw 1⟩,
                           exit_code := .Halted 0, input := .raw 2,
                           output := some { journal_digest :=
                                              journalDigest [7],
                                            assumptions_digest :=
                                              assumptionsListDigest
                                                [c4AssumptionMeta] } },
             index := 0 }]
          [.Succinct true c4AssumptionMeta] (some (journalDigest [7]))))
        ⟨[7]⟩).verify_with_context ⟨false⟩
        (SystemState.digest ⟨0, .raw 0⟩) = Except.ok ()
    ∧ (Receipt.mk (.Succinct true c4FinalMeta) ⟨[7]⟩).verify_with_context
        ⟨false⟩ (SystemState.digest ⟨0, .raw 0⟩)
        = Except.error .JournalDigestMismatch := by
  constructor
  · exact (C4_assumptions_amended).1 ⟨0, .raw 0⟩ ⟨4, .raw 1⟩ (.raw 2)
      c4AssumptionMeta [7] ⟨false⟩
  · exact (C4_assumptions_amended).2 c4FinalMeta
      { journal_digest := journalDigest [7],
        assumptions_digest := assumptionsListDigest [c4AssumptionMeta] }
      [7] ⟨false⟩ rfl rfl
      (by simp [assumptionsListDigest, digestChain])

/-- All receipts in a list are well-formed non-final segments whose seals
pass the oracle: `SystemSplit` exit code and absent output. -/
def splitSegmentsOk (l : List SegmentReceipt) : Prop :=
  ∀ s ∈ l, s.sealOk = true ∧ s.metadata.exit_code = ExitCode.SystemSplit
    ∧ s.metadata.output = none

/-- The image chain matches along the list when started from the running
digest `prev` (`none` at the first segment, whose pre digest is
unconstrained). -/
def ChainFrom : Option Digest → List SegmentReceipt → Prop
  | _, [] => True
  | none, s :: rest => ChainFrom (some s.metadata.post.digest) rest
  | some d, s :: rest =>
    d = s.metadata.pre.digest ∧ ChainFrom (some s.metadata.post.digest) rest

/-- The running previous post-image digest after examining the list. -/
def lastPost (prev : Option Digest) : List SegmentReceipt → Option Digest
  | [] => prev
  | s :: rest => lastPost (some s.metadata.post.digest) rest

/-- When every receipt in the list is a well-formed `SystemSplit` segment
and the chain matches from `prev`, the verification loop succeeds and the
running digest ends at the last post-state digest. -/
theorem verifyChainLoop_ok (ctx : VerifierContext) :
    ∀ (l : List SegmentReceipt) (prev : Option Digest),
      splitSegmentsOk l → ChainFrom prev l →
      verifyChainLoop ctx l prev = Except.ok (lastPost prev l) := by
  intro l
  induction l with
  | nil => intro prev _ _; rfl
  | cons s rest ih =>
    intro prev hok hchain
    obtain ⟨hseal, hexit, hout⟩ := hok s (List.mem_cons_self s rest)
    have hok' : splitSegmentsOk rest := fun x hx =>
      hok x (List.mem_cons_of_mem s hx)
    cases prev with
    | none =>
      simp only [verifyChainLoop, SegmentReceipt.verify_integrity_with_context,
        hseal, if_true, SegmentReceipt.get_metadata]
      rw [if_neg (not_not_intro hexit)]
      rw [if_neg (by simp [hout])]
      exact ih _ hok' hchain
    | some d =>
      obtain ⟨hd, hchain'⟩ := hchain
      simp only [verifyChainLoop, SegmentReceipt.verify_integrity_with_context,
        hseal, if_true, SegmentReceipt.get_metadata]
      rw [if_neg (not_not_intro hd)]
      rw [if_neg (not_not_intro hexit)]
      rw [if_neg (by simp [hout])]
      exact ih _ hok' hchain'

/-- When the loop reaches a receipt whose pre-state digest differs from the
running digest (all previous receipts having passed their checks), it
returns `ImageVerificationError`. -/
theorem verifyChainLoop_mismatch (ctx : VerifierContext) :
    ∀ (l1 : List SegmentReceipt) (prev : Option Digest)
      (a : SegmentReceipt) (t : List SegmentReceipt) (d : Digest),
      splitSegmentsOk l1 → ChainFrom prev l1 →
      lastPost prev l1 = some d →
      a.sealOk = true →
      d ≠ a.metadata.pre.digest →
      verifyChainLoop ctx (l1 ++ a :: t) prev =
        Except.error .ImageVerificationError := by
  intro l1
  induction l1 with
  | nil =>
    intro prev a t d _ _ hlp hseal hne
    cases prev with
    | none => exact absurd hlp (by simp [lastPost])
    | some d0 =>
      have hd0 : d0 = d := by simpa [lastPost] using hlp
      subst hd0
      simp only [List.nil_append, verifyChainLoop,
        SegmentReceipt.verify_integrity_with_context, hseal, if_true,
        SegmentReceipt.get_metadata]
      rw [if_pos hne]
  | cons s rest ih =>
    intro prev a t d hok hchain hlp hseal hne
    obtain ⟨hsseal, hexit, hout⟩ := hok s (List.mem_cons_self s rest)
    have hok' : splitSegmentsOk rest := fun x hx =>
      hok x (List.mem_cons_of_mem s hx)
    cases prev with
    | none =>
      simp only [List.cons_append, verifyChainLoop,
        SegmentReceipt.verify_integrity_with_context, hsseal, if_true,
        SegmentReceipt.get_metadata]
      rw [if_neg (not_not_intro hexit)]
      rw [if_neg (by simp [hout])]
      exact ih _ a t d hok' hchain hlp hseal hne
    | some d0 =>
      obtain ⟨hd0, hchain'⟩ := hchain
      simp only [List.cons_append, verifyChainLoop,
        SegmentReceipt.verify_integrity_with_context, hsseal, if_true,
        SegmentReceipt.get_metadata]
      rw [if_neg (not_not_intro hd0)]
      rw [if_neg (not_not_intro hexit)]
      rw [if_neg (by simp [hout])]
      exact ih _ a t d hok' hchain' hlp hseal hne

/-- Claim C1: For every CompositeReceipt whose segments each pass the
cryptographic oracle check, `verify_integrity` examines the non-final
segments in order and, whenever the running previous post-image digest
differs from a segment's (or the final segment's) reported pre-state digest,
returns `ImageVerificationError`; when they all match, the running digest is
advanced to each segment's post-state digest (the loop succeeds, ending at
the last post digest). -/
theorem C1_chain_verification (ctx : VerifierContext)
    (asm : List InnerReceipt) (jd : Option Digest) :
    (∀ (l1 : List SegmentReceipt) (a : SegmentReceipt)
        (l2 : List SegmentReceipt) (d : Digest),
      splitSegmentsOk l1 → ChainFrom none l1 →
      lastPost none l1 = some d →
      (∀ s ∈ l1 ++ a :: l2, s.sealOk = true) →
      d ≠ a.metadata.pre.digest →
      (CompositeReceipt.mk (l1 ++ a :: l2) asm
          jd).verify_integrity_with_context ctx =
        Except.error .ImageVerificationError)
    ∧ (∀ l : List SegmentReceipt,
      splitSegmentsOk l → ChainFrom none l →
      verifyChainLoop ctx l none = Except.ok (lastPost none l)) := by
  constructor
  · intro l1 a l2 d hok hchain hlp hseal hne
    have haseal : a.sealOk = true :=
      hseal a (by simp)
    cases l2 with
    | nil =>
      have hlast : (l1 ++ [a]).getLast? = some a := List.getLast?_concat _
      have hdrop : (l1 ++ [a]).dropLast = l1 := List.dropLast_concat
      simp only [CompositeReceipt.verify_integrity_with_context, hlast,
        hdrop]
      rw [verifyChainLoop_ok ctx l1 none hok hchain]
      simp only [hlp, SegmentReceipt.verify_integrity_with_context, haseal,
        if_true, SegmentReceipt.get_metadata]
      rw [if_pos hne]
    | cons b t =>
      have hne2 : (b :: t : List SegmentReceipt) ≠ [] := by simp
      have hlast : ∃ fin, (l1 ++ a :: b :: t).getLast? = some fin := by
        have : (l1 ++ a :: b :: t) ≠ [] := by simp
        cases hg : (l1 ++ a :: b :: t).getLast? with
        | none => exact absurd (List.getLast?_eq_none_iff.mp hg) this
        | some fin => exact ⟨fin, rfl⟩
      obtain ⟨fin, hfin⟩ := hlast
      have hdrop : (l1 ++ a :: b :: t).dropLast =
          l1 ++ a :: (b :: t).dropLast := by
        rw [List.dropLast_append_cons]
        rfl
      have hloop : verifyChainLoop ctx (l1 ++ a :: (b :: t).dropLast) none =
          Except.error .ImageVerificationError :=
        verifyChainLoop_mismatch ctx l1 none a _ d hok hchain hlp haseal hne
      simp only [CompositeReceipt.verify_integrity_with_context, hfin,
        hdrop, hloop]
  · exact fun l hok hchain => verifyChainLoop_ok ctx l none hok hchain

/-- Witness for C1: a two-segment composite receipt whose second segment's
pre digest does not extend the first segment's post digest is rejected with
`ImageVerificationError`. -/
theorem C1_chain_verification_witness :
    (CompositeReceipt.mk
        [{ sealOk := true,
           metadata := { pre := ⟨0, .raw 0⟩, post := ⟨4, .raw 1⟩,
                         exit_code := .SystemSplit, input := .raw 2,
                         output := none }, index := 0 },
         { sealOk := true,
           metadata := { pre := ⟨4, .raw 99⟩, post := ⟨8, .raw 3⟩,
                         exit_code := .Halted 0, input := .raw 2,
                         output := none }, index := 1 }]
        [] none).verify_integrity_with_context ⟨false⟩ =
      Except.error .ImageVerificationError := by
  exact (C1_chain_verification ⟨false⟩ [] none).1
    [{ sealOk := true,
       metadata := { pre := ⟨0, .raw 0⟩, post := ⟨4, .raw 1⟩,
                     exit_code := .SystemSplit, input := .raw 2,
                     output := none }, index := 0 }]
    { sealOk := true,
      metadata := { pre := ⟨4, .raw 99⟩, post := ⟨8, .raw 3⟩,
                    exit_code := .Halted 0, input := .raw 2,
                    output := none }, index := 1 }
    [] (SystemState.digest ⟨4, .raw 1⟩)
    (by simp [splitSegmentsOk]) (by simp [ChainFrom]) rfl
    (by simp) (by decide)

end RiscZero
